import Mathlib

/-!
gitdiffy-cli: watch loop, commit planning and commit application.

A shallow embedding of the Go sources `cmd/watch/watch.go`, `cmd/commit/commit.go`,
`api/api.go`, `git/git.go`, `model/model.go` and the single-file variant `gitdiffy.go`.

Every interaction with the outside world (a `git` sub-process, the HTTP call, the
clock, standard input) is appended to a trace of `Op` values, and its result is read
from a `World` oracle that is indexed by the trace issued so far.  Go strings are
Lean `String`s (valid UTF-8 is assumed, so byte-wise `strings.HasPrefix` coincides
with the character-wise test used here).  `time.Time` values are integers counting
nanoseconds, with the zero `time.Time` represented by `none`.  The one place where
the code can panic, the slicing of a status line in `performAutoCommit`, is modelled
by the outcome `panicked`.
-/

namespace Gitdiffy

/-! ## model/model.go -/

/-- Go struct `model.Commit`. -/
structure Commit where
  Message : String
  Files : List String
deriving DecidableEq, Repr

/-- The anonymous inner struct of `GenerateMessageResponse.Commits`. -/
structure CommitsField where
  Commits : List Commit
deriving DecidableEq, Repr

/-- Go struct `model.GenerateMessageResponse`: the proposals sit one level down, under
`commits.commits`. -/
structure GenerateMessageResponse where
  Commits : CommitsField
  Error : String
deriving DecidableEq, Repr

/-- Go struct `model.GenerateMessageRequest`, the body of the request. -/
structure GenerateMessageRequest where
  LicenseKey : String
  Diff : String
deriving DecidableEq, Repr

/-! ## The outside world -/

/-- External interactions, in the order the program issues them. -/
inductive Op where
  | statusPorcelain
  | addAll
  | statusShort
  | diffCached
  | post (req : GenerateMessageRequest)
  | revParseHead
  | checkoutB (name : String)
  | restoreStaged
  | add (files : List String)
  | commit (message : String)
  | push (remote : String) (branch : String)
  | scanln
deriving DecidableEq, Repr

/-- A parsed JSON document (numbers are kept as integers; no field of the response
is numeric). -/
inductive JVal where
  | null
  | bool (b : Bool)
  | num (n : Int)
  | str (s : String)
  | arr (xs : List JVal)
  | obj (kvs : List (String × JVal))

/-- Result of `http.Post`: a transport failure with its cause, or a response whose
body is either a JSON document or not valid JSON at all (`none`). -/
inductive PostReply where
  | transportError (cause : String)
  | body (data : Option JVal)

/-- Process-wide configuration read through viper (`cmd/root.go`). Durations are
nanoseconds. -/
structure Config where
  license : String
  branchPrefix : String
  pushRemote : String
  maxWorkDuration : Int

/-- The oracle answering every external interaction, given the trace issued before it. -/
structure World where
  run : List Op → Op → Bool
  output : List Op → Op → Option String
  httpPost : List Op → GenerateMessageRequest → PostReply
  timestamp : List Op → String
  readLine : List Op → String

/-- Go `exec.Command(...).Run()`: the operation is issued and its success is returned. -/
def exec (w : World) (tr : List Op) (op : Op) : Bool × List Op :=
  (w.run tr op, tr ++ [op])

/-- Go `exec.Command(...).Output()`: `none` stands for `err != nil`. -/
def output (w : World) (tr : List Op) (op : Op) : Option String × List Op :=
  (w.output tr op, tr ++ [op])

/-! ## Go standard library: strings -/

/-- Go `unicode.IsSpace`. -/
def isSpace (c : Char) : Bool :=
  let n := c.toNat
  (9 ≤ n && n ≤ 13) || n == 32 || n == 0x85 || n == 0xA0 || n == 0x1680 ||
    (0x2000 ≤ n && n ≤ 0x200A) || n == 0x2028 || n == 0x2029 || n == 0x202F ||
    n == 0x205F || n == 0x3000

/-- Go `strings.TrimSpace`. -/
def trimSpace (s : String) : String :=
  ⟨((s.data.dropWhile isSpace).reverse.dropWhile isSpace).reverse⟩

/-- Go `strings.HasPrefix s p`. -/
def hasPrefix (s p : String) : Bool :=
  p.data.isPrefixOf s.data

/-- Go `strings.Split(s, "\n")`, on the characters of `s`. -/
def splitLines (s : List Char) : List (List Char) :=
  s.foldr (fun c acc =>
    if c = '\n' then [] :: acc
    else match acc with
      | cur :: rest => (c :: cur) :: rest
      | [] => [[c]]) [[]]

/-- Go `len(line)`: the number of bytes of the UTF-8 encoding. -/
def byteLen (line : List Char) : Nat :=
  (line.map Char.utf8Size).sum

/-- Go `strings.ToLower` on the ASCII letters, which is all that the test
`strings.ToLower(input) == "y"` depends on (no other character lower-cases to `y`). -/
def toLower (s : String) : String :=
  ⟨s.data.map Char.toLower⟩

/-! ## git/git.go -/

/-- Go `git.HasChanges` (and `hasChanges` of `gitdiffy.go`). -/
def HasChanges (w : World) (tr : List Op) : Bool × List Op :=
  let r := output w tr Op.statusPorcelain
  match r.1 with
  | none => (false, r.2)
  | some out => (trimSpace out != "", r.2)

/-! ## api/api.go -/

/-- Simple case folding of one character as far as it can reach an ASCII letter: the
ASCII upper-case letters, the Kelvin sign and the long s. -/
def foldChar (c : Char) : Char :=
  if c.toNat == 0x212A then 'k' else if c.toNat == 0x17F then 's' else c.toLower

/-- Key lookup of `encoding/json` for a struct field whose tag is the ASCII name
`name`: an exact match or a match under case folding. -/
def fieldMatch (key name : String) : Bool :=
  key == name || key.data.map foldChar == name.data.map foldChar

/-- Decoding into a `string`: a JSON string is stored, `null` and a value of another
type leave the target as it is. -/
def decodeString (cur : String) : JVal → String
  | JVal.str s => s
  | _ => cur

/-- Decoding into a `[]string`. -/
def decodeStringSlice (cur : List String) : JVal → List String
  | JVal.arr xs => xs.map (decodeString "")
  | JVal.null => []
  | _ => cur

/-- Decoding into a `model.Commit`. -/
def decodeCommit (cur : Commit) : JVal → Commit
  | JVal.obj kvs =>
    kvs.foldl (fun c kv =>
      if fieldMatch kv.1 "message" then { c with Message := decodeString c.Message kv.2 }
      else if fieldMatch kv.1 "files" then { c with Files := decodeStringSlice c.Files kv.2 }
      else c) cur
  | _ => cur

/-- Decoding into a `[]model.Commit`; every element starts from the zero `Commit`. -/
def decodeCommitSlice (cur : List Commit) : JVal → List Commit
  | JVal.arr xs => xs.map (decodeCommit ⟨"", []⟩)
  | JVal.null => []
  | _ => cur

/-- Decoding into the inner struct of `GenerateMessageResponse.Commits`: only a JSON
object is accepted, a JSON array is a type mismatch that leaves the struct as it is. -/
def decodeCommitsField (cur : CommitsField) : JVal → CommitsField
  | JVal.obj kvs =>
    kvs.foldl (fun c kv =>
      if fieldMatch kv.1 "commits" then { c with Commits := decodeCommitSlice c.Commits kv.2 }
      else c) cur
  | _ => cur

/-- Go `json.Unmarshal(data, &res)` into a zero `GenerateMessageResponse`; the error
it returns is discarded by the caller, so only the resulting struct matters. -/
def unmarshalResponse : Option JVal → GenerateMessageResponse
  | some (JVal.obj kvs) =>
    kvs.foldl (fun r kv =>
      if fieldMatch kv.1 "commits" then { r with Commits := decodeCommitsField r.Commits kv.2 }
      else if fieldMatch kv.1 "error" then { r with Error := decodeString r.Error kv.2 }
      else r) ⟨⟨[]⟩, ""⟩
  | _ => ⟨⟨[]⟩, ""⟩

/-- Go `api.GenerateCommitMessages` (and `generateCommitMessages` of `gitdiffy.go`). -/
def GenerateCommitMessages (w : World) (cfg : Config) (tr : List Op) (diff : String) :
    Except String (List Commit) × List Op :=
  let req : GenerateMessageRequest := ⟨cfg.license, diff⟩
  let tr1 := tr ++ [Op.post req]
  match w.httpPost tr req with
  | PostReply.transportError cause => (Except.error ("network error: " ++ cause), tr1)
  | PostReply.body data =>
    let res := unmarshalResponse data
    if res.Error != "" then (Except.error ("API error: " ++ res.Error), tr1)
    else (Except.ok res.Commits.Commits, tr1)

/-! ## cmd/watch/watch.go -/

/-- What a run of a command or of a cycle reported before returning. -/
inductive Outcome where
  | exited (code : Nat)
  | noChanges
  | generationFailed (err : String)
  | completed (branch : String)
  | done
  | panicked
deriving DecidableEq, Repr

/-- The branch a cycle commits to, and whether it has to be created. -/
structure BranchTarget where
  name : String
  isNew : Bool
deriving DecidableEq, Repr

/-- Lines 108-111 of `performAutoCommit`: `branchName := currentBranch`, replaced by
`fmt.Sprintf("%s-%s", branchPrefix, timestamp)` when the current branch does not start
with the configured branch name head. -/
def branchTarget (currentBranch branchPrefix timestamp : String) : BranchTarget :=
  if !hasPrefix currentBranch branchPrefix then
    ⟨branchPrefix ++ "-" ++ timestamp, true⟩
  else
    ⟨currentBranch, false⟩

/-- Lines 108-113 of `performAutoCommit`: the branch target, and `git checkout -b` on
it when it is new (the clock is read for the timestamp only in that case). -/
def resolveBranch (w : World) (cfg : Config) (tr : List Op) (currentBranch : String) :
    BranchTarget × List Op :=
  let bt := branchTarget currentBranch cfg.branchPrefix (w.timestamp tr)
  (bt, if bt.isNew then (exec w tr (Op.checkoutB bt.name)).2 else tr)

/-- Lines 58-81 of `performAutoCommit`, the listing of the staged files: it only
prints, but `line[:2]` panics (slice bounds out of range) on a non-empty line shorter
than two bytes, which `git status --short` never prints. -/
def statusListingPanics : Option String → Bool
  | none => false
  | some statusOutput =>
    statusOutput.length != 0 &&
      (splitLines statusOutput.data).any (fun line => !line.isEmpty && byteLen line < 2)

/-- The `for _, commit := range commits` loop of `performAutoCommit`: both results of
`Run()` are discarded. -/
def applyAll (w : World) (tr : List Op) : List Commit → List Op
  | [] => tr
  | c :: rest =>
    let tr1 := (exec w tr (Op.add c.Files)).2
    let tr2 := (exec w tr1 (Op.commit c.Message)).2
    applyAll w tr2 rest

/-- Go `performAutoCommit` of `cmd/watch/watch.go` (and of `gitdiffy.go`, which reads
the same settings from package variables). -/
def performAutoCommit (w : World) (cfg : Config) (tr : List Op) : Outcome × List Op :=
  let tr1 := (exec w tr Op.addAll).2
  let status := output w tr1 Op.statusShort
  if statusListingPanics status.1 then (Outcome.panicked, status.2)
  else
    let diff := output w status.2 Op.diffCached
    match diff.1 with
    | none => (Outcome.noChanges, diff.2)
    | some diffOutput =>
      if diffOutput.length == 0 then (Outcome.noChanges, diff.2)
      else
        let gen := GenerateCommitMessages w cfg diff.2 diffOutput
        match gen.1 with
        | Except.error err => (Outcome.generationFailed err, gen.2)
        | Except.ok commits =>
          let rev := output w gen.2 Op.revParseHead
          let currentBranch := match rev.1 with
            | none => "main"
            | some out => trimSpace out
          let br := resolveBranch w cfg rev.2 currentBranch
          let tr4 := (exec w br.2 Op.restoreStaged).2
          let tr5 := applyAll w tr4 commits
          let tr6 := (exec w tr5 (Op.push cfg.pushRemote br.1.name)).2
          (Outcome.completed br.1.name, tr6)

/-- The two clock readings a poll tick may take: `time.Now()` of line 36 (taken only
when the window is unset) and the `time.Now()` inside `time.Since` of line 38. -/
structure TickClock where
  nowSet : Int
  nowSince : Int
deriving DecidableEq, Repr

/-- State of `monitorRepo` between two ticks: the variable `firstChange` (`none` is
the zero `time.Time`) and the trace so far. -/
structure MonitorState where
  firstChange : Option Int
  trace : List Op

/-- What one tick did: the state it leaves, whether `git.HasChanges()` was true, the
value of `elapsed` when it was computed, whether `performAutoCommit` was called, and
whether that call panicked (the process is then gone and no further tick runs). -/
structure TickResult where
  state : MonitorState
  changes : Bool
  elapsed : Option Int
  triggered : Bool
  crashed : Bool
  clock : TickClock

/-- Body of the `for range ticker.C` loop of `monitorRepo`. -/
def monitorTick (w : World) (cfg : Config) (st : MonitorState) (clk : TickClock) :
    TickResult :=
  let hc := HasChanges w st.trace
  if hc.1 then
    let firstChange := match st.firstChange with
      | none => clk.nowSet
      | some t => t
    let elapsed := clk.nowSince - firstChange
    if elapsed ≥ cfg.maxWorkDuration then
      let cyc := performAutoCommit w cfg hc.2
      ⟨⟨none, cyc.2⟩, true, some elapsed, true, cyc.1 == Outcome.panicked, clk⟩
    else
      ⟨⟨some firstChange, hc.2⟩, true, some elapsed, false, false, clk⟩
  else
    ⟨⟨none, hc.2⟩, false, none, false, false, clk⟩

/-- Go `monitorRepo`, run for as many ticks as there are clock readings, or until a
cycle panics: starts with `firstChange` zero in the source, here from any state so
that runs compose. -/
def monitorRepo (w : World) (cfg : Config) (st : MonitorState) :
    List TickClock → MonitorState × List TickResult
  | [] => (st, [])
  | clk :: rest =>
    let r := monitorTick w cfg st clk
    if r.crashed then (r.state, [r])
    else
      let tail := monitorRepo w cfg r.state rest
      (tail.1, r :: tail.2)

/-- How a run of the watch loop over finitely many ticks ends. -/
def watchOutcome (results : List TickResult) : Outcome :=
  if results.any (fun r => r.crashed) then Outcome.panicked else Outcome.done

/-- Go `WatchCmd.Run` of `cmd/watch/watch.go`: prints the banner and enters
`monitorRepo`; there is no look at the license key. -/
def WatchCmd_Run (w : World) (cfg : Config) (clocks : List TickClock) :
    Outcome × List Op :=
  let run := monitorRepo w cfg ⟨none, []⟩ clocks
  (watchOutcome run.2, run.1.trace)

/-- Go `watchCmd().Run` of the single-file `gitdiffy.go`: refuses to run without a
license key. -/
def watchCmd_Run (w : World) (cfg : Config) (clocks : List TickClock) :
    Outcome × List Op :=
  if cfg.license == "" then (Outcome.exited 1, [])
  else
    let run := monitorRepo w cfg ⟨none, []⟩ clocks
    (watchOutcome run.2, run.1.trace)

/-! ## cmd/commit/commit.go -/

/-- The confirm-each loop of `CommitCmd.Run`. -/
def confirmEach (w : World) (tr : List Op) : List Commit → List Op
  | [] => tr
  | c :: rest =>
    let input := w.readLine tr
    let tr1 := tr ++ [Op.scanln]
    if toLower input == "y" then
      let tr2 := (exec w tr1 (Op.add c.Files)).2
      let tr3 := (exec w tr2 (Op.commit c.Message)).2
      confirmEach w tr3 rest
    else
      confirmEach w tr1 rest

/-- Go `CommitCmd.Run` of `cmd/commit/commit.go`. -/
def CommitCmd_Run (w : World) (cfg : Config) : Outcome × List Op :=
  if cfg.license == "" then (Outcome.exited 1, [])
  else
    let hc := HasChanges w []
    if !hc.1 then (Outcome.noChanges, hc.2)
    else
      let tr1 := (exec w hc.2 Op.addAll).2
      let diff := output w tr1 Op.diffCached
      match diff.1 with
      | none => (Outcome.noChanges, diff.2)
      | some diffOutput =>
        if diffOutput.length == 0 then (Outcome.noChanges, diff.2)
        else
          let gen := GenerateCommitMessages w cfg diff.2 diffOutput
          match gen.1 with
          | Except.error err => (Outcome.generationFailed err, gen.2)
          | Except.ok commits =>
            let tr2 := (exec w gen.2 Op.restoreStaged).2
            (Outcome.done, confirmEach w tr2 commits)

/-! ## Wire format of the response, as the struct tags of `model/model.go` give it -/

/-- JSON document of a `model.Commit`: keys `message` and `files`. -/
def wireCommit (c : Commit) : JVal :=
  JVal.obj [("message", JVal.str c.Message), ("files", JVal.arr (c.Files.map JVal.str))]

/-- JSON document of a `model.GenerateMessageResponse`: key `commits` holds an object
whose key `commits` holds the proposals; key `error` is `omitempty`, and
`keepEmptyError` says whether an empty error text is written out all the same. -/
def wireResponse (keepEmptyError : Bool) (r : GenerateMessageResponse) : JVal :=
  JVal.obj
    ([("commits", JVal.obj [("commits", JVal.arr (r.Commits.Commits.map wireCommit))])] ++
      (if r.Error == "" && !keepEmptyError then [] else [("error", JVal.str r.Error)]))

/-! ## Spec-side vocabulary used in the statements -/

/-- The window start a tick works with: the stored `firstChange`, or the tick's own
`time.Now()` reading when the window was unset before the tick. -/
def windowStart (fc : Option Int) (clk : TickClock) : Int :=
  match fc with
  | none => clk.nowSet
  | some t => t

/-- The instant from which elapsed time counts for a tick `ck` that follows the run of
ticks `cs`: the first tick of the run, or `ck` itself when the run is empty. -/
def runStart (cs : List TickClock) (ck : TickClock) : Int :=
  match cs with
  | [] => ck.nowSet
  | c1 :: _ => c1.nowSet

/-- The operations a plan asks for, in plan order: stage the files of a proposal, then
commit with its message. -/
def planOps (cs : List Commit) : List Op :=
  cs.flatMap (fun c => [Op.add c.Files, Op.commit c.Message])

/-- Response body of scenario B in the shape the struct of `model/model.go` decodes:
the proposals under `commits.commits`. -/
def nestedScenarioBody : JVal :=
  JVal.obj [("commits", JVal.obj [("commits", JVal.arr
      [JVal.obj [("message", JVal.str "fix bug"), ("files", JVal.arr [JVal.str "a.go"])]])]),
    ("error", JVal.str "")]

/-- Response body of scenario B in the shape the interface contract of the
specification gives: `commits` is directly the sequence of proposals. -/
def flatScenarioBody : JVal :=
  JVal.obj [("commits", JVal.arr
      [JVal.obj [("message", JVal.str "fix bug"), ("files", JVal.arr [JVal.str "a.go"])]]),
    ("error", JVal.str "")]

/-! ## Concrete worlds and configurations for the closed statements -/

/-- A world that answers every read the same way whatever happened before: the staged
diff, the current branch, and one text for every other command output. -/
def fixedWorld (status diff rev : Option String) (reply : PostReply) : World where
  run := fun _ _ => true
  output := fun _ op =>
    match op with
    | Op.diffCached => diff
    | Op.revParseHead => rev
    | _ => status
  httpPost := fun _ _ => reply
  timestamp := fun _ => "20240101-000000"
  readLine := fun _ => "y"

/-- A world whose working tree is clean at the very first command and modified at
every later one; its staged diff always reads empty, so a triggered cycle ends at once. -/
def idleThenBusyWorld : World where
  run := fun _ _ => true
  output := fun h op =>
    match op with
    | Op.statusPorcelain => if h.isEmpty then some "" else some " M a.go\n"
    | _ => some ""
  httpPost := fun _ _ => PostReply.transportError "connection refused"
  timestamp := fun _ => "20240101-000000"
  readLine := fun _ => "y"

/-- The flag defaults of `cmd/root.go`: branch name head `gitdiffy`, remote `origin`,
ten minutes of work. -/
def defaultConfig (license : String) : Config :=
  ⟨license, "gitdiffy", "origin", 600000000000⟩

/-! ## Helper lemmas -/

theorem hasPrefix_append (p s : String) : hasPrefix (p ++ s) p = true := by
  simp [hasPrefix, String.data_append]

theorem decodeStringSlice_wire (fs : List String) :
    decodeStringSlice [] (JVal.arr (fs.map JVal.str)) = fs := by
  simp only [decodeStringSlice, List.map_map]
  induction fs with
  | nil => rfl
  | cons f rest ih => simp [decodeString] at ih ⊢; exact ih

theorem decodeCommit_wire (c : Commit) : decodeCommit ⟨"", []⟩ (wireCommit c) = c := by
  have h1 : fieldMatch "message" "message" = true := by decide
  have h2 : fieldMatch "files" "message" = false := by decide
  have h3 : fieldMatch "files" "files" = true := by decide
  simp only [decodeCommit, wireCommit, List.foldl, h1, h2, h3, if_true, decodeString,
    decodeStringSlice_wire]
  simp

theorem decodeCommitSlice_wire (ps : List Commit) :
    decodeCommitSlice [] (JVal.arr (ps.map wireCommit)) = ps := by
  simp only [decodeCommitSlice, List.map_map]
  induction ps with
  | nil => rfl
  | cons c rest ih => simp only [List.map, Function.comp, decodeCommit_wire] at ih ⊢; rw [ih]

/-- Decoding the wire form of a response gives the response back. -/
theorem unmarshal_wire (keep : Bool) (r : GenerateMessageResponse) :
    unmarshalResponse (some (wireResponse keep r)) = r := by
  have h1 : fieldMatch "commits" "commits" = true := by decide
  have h2 : fieldMatch "error" "commits" = false := by decide
  have h3 : fieldMatch "error" "error" = true := by decide
  obtain ⟨⟨ps⟩, e⟩ := r
  by_cases hk : (e == "" && !keep) = true
  · have he : e = "" := by
      simp at hk; exact hk.1
    subst he
    simp only [unmarshalResponse, wireResponse, hk, if_true, List.append_nil, List.foldl, h1,
      decodeCommitsField, decodeCommitSlice_wire]
  · simp only [unmarshalResponse, wireResponse, hk, List.foldl, h1, h2, h3, if_true,
      decodeCommitsField, decodeCommitSlice_wire, decodeString]
    simp

theorem unmarshal_nestedScenarioBody :
    unmarshalResponse (some nestedScenarioBody) = ⟨⟨[⟨"fix bug", ["a.go"]⟩]⟩, ""⟩ :=
  unmarshal_wire true ⟨⟨[⟨"fix bug", ["a.go"]⟩]⟩, ""⟩

/-- The apply-all loop issues the operations of the plan and nothing else. -/
theorem applyAll_trace (w : World) (cs : List Commit) :
    ∀ tr : List Op, applyAll w tr cs = tr ++ planOps cs := by
  induction cs with
  | nil => intro tr; simp [applyAll, planOps]
  | cons c rest ih =>
    intro tr
    simp only [applyAll, exec, ih, planOps, List.flatMap_cons, List.append_assoc]
    simp

theorem GenerateCommitMessages_trace (w : World) (cfg : Config) (tr : List Op) (d : String) :
    (GenerateCommitMessages w cfg tr d).2 = tr ++ [Op.post ⟨cfg.license, d⟩] := by
  unfold GenerateCommitMessages
  simp only []
  split
  · rfl
  · split_ifs <;> rfl

theorem HasChanges_trace (w : World) (tr : List Op) :
    (HasChanges w tr).2 = tr ++ [Op.statusPorcelain] := by
  unfold HasChanges output
  cases w.output tr Op.statusPorcelain <;> rfl

/-- A cycle whose staged diff is non-empty and whose generation call succeeds runs to
the push. -/
theorem performAutoCommit_ok (w : World) (cfg : Config) (tr : List Op) (d : String)
    (data : Option JVal)
    (hstatus : statusListingPanics (w.output (tr ++ [Op.addAll]) Op.statusShort) = false)
    (hdiff : w.output (tr ++ [Op.addAll, Op.statusShort]) Op.diffCached = some d)
    (hd : d.length ≠ 0)
    (hpost : w.httpPost (tr ++ [Op.addAll, Op.statusShort, Op.diffCached]) ⟨cfg.license, d⟩ =
      PostReply.body data)
    (herr : (unmarshalResponse data).Error = "") :
    performAutoCommit w cfg tr =
      let pre := tr ++ [Op.addAll, Op.statusShort, Op.diffCached, Op.post ⟨cfg.license, d⟩]
      let cur := match w.output pre Op.revParseHead with
        | none => "main"
        | some out => trimSpace out
      let br := resolveBranch w cfg (pre ++ [Op.revParseHead]) cur
      (Outcome.completed br.1.name,
        br.2 ++ [Op.restoreStaged] ++ planOps (unmarshalResponse data).Commits.Commits ++
          [Op.push cfg.pushRemote br.1.name]) := by
  simp only [performAutoCommit, exec, output, hstatus, List.append_assoc,
    List.singleton_append, List.cons_append, List.nil_append, hdiff, GenerateCommitMessages,
    hpost, herr, applyAll_trace]
  simp [hd]

/-- On a branch that already starts with the configured head, a cycle issues no
`git checkout -b`. -/
theorem performAutoCommit_checkout (w : World) (cfg : Config) (tr : List Op) (out : String)
    (hrev : ∀ h, w.output h Op.revParseHead = some out)
    (hpre : hasPrefix (trimSpace out) cfg.branchPrefix = true) (name : String)
    (hmem : Op.checkoutB name ∈ (performAutoCommit w cfg tr).2) : Op.checkoutB name ∈ tr := by
  unfold performAutoCommit at hmem
  simp only [exec, output, hrev, resolveBranch, branchTarget, hpre, applyAll_trace,
    GenerateCommitMessages_trace] at hmem
  have hplan : ∀ cs : List Commit, Op.checkoutB name ∉ planOps cs := by
    intro cs; simp [planOps]
  split at hmem
  · simpa using hmem
  · split at hmem
    · simpa using hmem
    · split at hmem
      · simpa using hmem
      · split at hmem
        · simpa using hmem
        · simp [hplan] at hmem
          simpa using hmem

/-- The loop body of `monitorRepo` as a decision tree over the two tests it makes. -/
theorem monitorTick_eq (w : World) (cfg : Config) (st : MonitorState) (clk : TickClock) :
    monitorTick w cfg st clk =
      if (HasChanges w st.trace).1 = true then
        if cfg.maxWorkDuration ≤ clk.nowSince - windowStart st.firstChange clk then
          ⟨⟨none, (performAutoCommit w cfg (st.trace ++ [Op.statusPorcelain])).2⟩, true,
            some (clk.nowSince - windowStart st.firstChange clk), true,
            (performAutoCommit w cfg (st.trace ++ [Op.statusPorcelain])).1 == Outcome.panicked,
            clk⟩
        else
          ⟨⟨some (windowStart st.firstChange clk), st.trace ++ [Op.statusPorcelain]⟩, true,
            some (clk.nowSince - windowStart st.firstChange clk), false, false, clk⟩
      else
        ⟨⟨none, st.trace ++ [Op.statusPorcelain]⟩, false, none, false, false, clk⟩ := by
  rw [← HasChanges_trace]
  rfl

/-- Only a triggered cycle can panic. -/
theorem monitorTick_crashed (w : World) (cfg : Config) (st : MonitorState) (clk : TickClock)
    (h : (monitorTick w cfg st clk).triggered = false) :
    (monitorTick w cfg st clk).crashed = false := by
  rw [monitorTick_eq] at h ⊢
  split_ifs at h ⊢ <;> simp_all

theorem monitorTick_reset (w : World) (cfg : Config) (st : MonitorState) (clk : TickClock)
    (h : (monitorTick w cfg st clk).changes = false ∨
      (monitorTick w cfg st clk).triggered = true) :
    (monitorTick w cfg st clk).state.firstChange = none := by
  rw [monitorTick_eq] at h ⊢
  split_ifs at h ⊢ <;> simp_all

theorem monitorTick_keep (w : World) (cfg : Config) (st : MonitorState) (clk : TickClock)
    (h : (monitorTick w cfg st clk).changes = true ∧
      (monitorTick w cfg st clk).triggered = false) :
    (monitorTick w cfg st clk).state.firstChange = some (windowStart st.firstChange clk) := by
  rw [monitorTick_eq] at h ⊢
  split_ifs at h ⊢ <;> simp_all

theorem monitorTick_elapsed (w : World) (cfg : Config) (st : MonitorState) (clk : TickClock)
    (h : (monitorTick w cfg st clk).changes = true) :
    (monitorTick w cfg st clk).elapsed =
      some (clk.nowSince - windowStart st.firstChange clk) := by
  rw [monitorTick_eq] at h ⊢
  split_ifs at h ⊢ <;> simp_all

/-- Over a run of ticks that all observe changes and none of which triggers, the
window start is the one the run began with, or the first tick of the run. -/
theorem monitorRepo_window (w : World) (cfg : Config) (cs : List TickClock) :
    ∀ st : MonitorState,
      (∀ r ∈ (monitorRepo w cfg st cs).2, r.changes = true ∧ r.triggered = false) →
      (monitorRepo w cfg st cs).1.firstChange =
        match st.firstChange, cs with
        | some s, _ => some s
        | none, [] => none
        | none, c1 :: _ => some c1.nowSet := by
  induction cs with
  | nil =>
    intro st _
    cases hfc : st.firstChange <;> simp [monitorRepo, hfc]
  | cons c rest ih =>
    intro st hall
    by_cases hcr : (monitorTick w cfg st c).crashed = true
    · simp only [monitorRepo, hcr, if_true, List.mem_singleton, forall_eq] at hall
      rw [monitorTick_crashed w cfg st c hall.2] at hcr
      exact absurd hcr (by decide)
    · simp only [monitorRepo, hcr, Bool.false_eq_true, if_false, List.mem_cons,
        forall_eq_or_imp] at hall ⊢
      have hk := monitorTick_keep w cfg st c hall.1
      rw [ih _ hall.2, hk]
      cases hfc : st.firstChange <;> simp [windowStart]

/-! ## The claims -/

/-- C1, evaluated on the code: the staged diff is non-empty and the generation call
fails, by a refused connection or by a non-empty error field. Both `performAutoCommit`
and `CommitCmd.Run` return right after the call: the request is the last operation of
the run, `git restore --staged .` is never issued, and everything `git add .` staged
stays staged. No branch, stage, commit or push operation is issued either. -/
theorem C1_generation_failure_leaves_tree_staged :
    performAutoCommit
        (fixedWorld (some " M a.go\n") (some "diff") (some "main\n")
          (PostReply.transportError "connection refused"))
        (defaultConfig "key") [] =
      (Outcome.generationFailed "network error: connection refused",
        [Op.addAll, Op.statusShort, Op.diffCached, Op.post ⟨"key", "diff"⟩]) ∧
    performAutoCommit
        (fixedWorld (some " M a.go\n") (some "diff") (some "main\n")
          (PostReply.body (some (wireResponse true ⟨⟨[]⟩, "rate limited"⟩))))
        (defaultConfig "key") [] =
      (Outcome.generationFailed "API error: rate limited",
        [Op.addAll, Op.statusShort, Op.diffCached, Op.post ⟨"key", "diff"⟩]) ∧
    CommitCmd_Run
        (fixedWorld (some " M a.go\n") (some "diff") (some "main\n")
          (PostReply.transportError "connection refused"))
        (defaultConfig "key") =
      (Outcome.generationFailed "network error: connection refused",
        [Op.statusPorcelain, Op.addAll, Op.diffCached, Op.post ⟨"key", "diff"⟩]) ∧
    Op.restoreStaged ∉ (performAutoCommit
        (fixedWorld (some " M a.go\n") (some "diff") (some "main\n")
          (PostReply.transportError "connection refused"))
        (defaultConfig "key") []).2 ∧
    Op.restoreStaged ∉ (CommitCmd_Run
        (fixedWorld (some " M a.go\n") (some "diff") (some "main\n")
          (PostReply.transportError "connection refused"))
        (defaultConfig "key")).2 := by
  decide

/-- C2: for every threshold, window state and poll tick of `monitorRepo`, the tick
calls `performAutoCommit` if and only if `git.HasChanges()` is true and the elapsed
time since the window start is at least `maxWorkDuration`, the window start being the
tick's own clock reading when the window was unset. A tick that observes changes with
a smaller elapsed time triggers nothing, issues nothing but its status query, and
leaves that window start stored. A tick that triggers runs the cycle and clears the
window. -/
theorem C2_poll_tick_trigger (w : World) (cfg : Config) (st : MonitorState)
    (clk : TickClock) :
    ((monitorTick w cfg st clk).triggered = true ↔
      ((HasChanges w st.trace).1 = true ∧
        cfg.maxWorkDuration ≤ clk.nowSince - windowStart st.firstChange clk)) ∧
    ((HasChanges w st.trace).1 = true →
      clk.nowSince - windowStart st.firstChange clk < cfg.maxWorkDuration →
      (monitorTick w cfg st clk).triggered = false ∧
      (monitorTick w cfg st clk).state.firstChange = some (windowStart st.firstChange clk) ∧
      (monitorTick w cfg st clk).state.trace = st.trace ++ [Op.statusPorcelain]) ∧
    ((monitorTick w cfg st clk).triggered = true →
      (monitorTick w cfg st clk).state.firstChange = none ∧
      (monitorTick w cfg st clk).state.trace =
        (performAutoCommit w cfg (st.trace ++ [Op.statusPorcelain])).2) := by
  rw [monitorTick_eq]
  by_cases hc : (HasChanges w st.trace).1 = true
  · by_cases he : cfg.maxWorkDuration ≤ clk.nowSince - windowStart st.firstChange clk
    · simp [hc, he]
    · simp [hc, he]
  · simp [hc]

/-- C3 as amended: from every monitor state, a tick that observes no pending changes
leaves the window unset, triggers no cycle and issues only its status query. The
elapsed time a later tick sees is measured from the first changes-observing tick after
the most recent tick that either observed no changes or triggered a cycle (one that
returned; a panic ends the process): after such a tick `c0`, over any run `cs` of ticks that all observe changes without triggering,
the next changes-observing tick `ck` computes its elapsed time from the first tick of
`cs` (from itself when `cs` is empty). -/
theorem C3_no_partial_credit (w : World) (cfg : Config) (st : MonitorState) (c0 : TickClock)
    (cs : List TickClock) (ck : TickClock)
    (h0 : (monitorTick w cfg st c0).changes = false ∨
      ((monitorTick w cfg st c0).triggered = true ∧ (monitorTick w cfg st c0).crashed = false))
    (hrun : ∀ r ∈ (monitorRepo w cfg (monitorTick w cfg st c0).state cs).2,
      r.changes = true ∧ r.triggered = false)
    (hk : (monitorTick w cfg (monitorRepo w cfg (monitorTick w cfg st c0).state cs).1
      ck).changes = true) :
    (∀ (s : MonitorState) (c : TickClock), (monitorTick w cfg s c).changes = false →
      (monitorTick w cfg s c).state.firstChange = none ∧
      (monitorTick w cfg s c).triggered = false ∧
      (monitorTick w cfg s c).state.trace = s.trace ++ [Op.statusPorcelain]) ∧
    (monitorTick w cfg (monitorRepo w cfg (monitorTick w cfg st c0).state cs).1 ck).elapsed =
      some (ck.nowSince - runStart cs ck) := by
  constructor
  · intro s c hc
    rw [monitorTick_eq] at hc ⊢
    split_ifs at hc ⊢
    simp_all
  · rw [monitorTick_elapsed w cfg _ ck hk, monitorRepo_window w cfg cs _ hrun,
      monitorTick_reset w cfg st c0 (h0.imp id And.left)]
    cases cs with
    | nil => simp [windowStart, runStart]
    | cons c rest => simp [windowStart, runStart]

/-- Witness of C3 as amended: threshold 10, a clean tick at instant 0, two
changes-observing ticks at 1 and 2 that stay under the threshold, and a tick at 3 whose
elapsed time is 3 - 1. -/
theorem C3_no_partial_credit_witness :
    (monitorTick idleThenBusyWorld ⟨"key", "gitdiffy", "origin", 10⟩
        (monitorRepo idleThenBusyWorld ⟨"key", "gitdiffy", "origin", 10⟩
          (monitorTick idleThenBusyWorld ⟨"key", "gitdiffy", "origin", 10⟩ ⟨none, []⟩
            ⟨0, 0⟩).state [⟨1, 1⟩, ⟨2, 2⟩]).1 ⟨3, 3⟩).elapsed =
      some ((3 : Int) - runStart [⟨1, 1⟩, ⟨2, 2⟩] ⟨3, 3⟩) :=
  (C3_no_partial_credit idleThenBusyWorld ⟨"key", "gitdiffy", "origin", 10⟩ ⟨none, []⟩
    ⟨0, 0⟩ [⟨1, 1⟩, ⟨2, 2⟩] ⟨3, 3⟩ (by decide) (by decide) (by decide)).2

/-- Counterexample to C3 as stated: threshold 2, a clean tick at instant 0, then
changes-observing ticks at 1, 2 and 3, the last of which reaches the threshold and
triggers a cycle, then a changes-observing tick at 4. The most recent no-changes tick
is the one at 0 and the first changes-observing tick after it is the one at 1, so the
claim puts the elapsed time of the tick at 4 at 3; the code computes 0, because the
trigger at 3 cleared the window. -/
theorem C3_elapsed_restarts_after_trigger :
    (monitorTick idleThenBusyWorld ⟨"key", "gitdiffy", "origin", 2⟩ ⟨none, []⟩
      ⟨0, 0⟩).changes = false ∧
    (monitorRepo idleThenBusyWorld ⟨"key", "gitdiffy", "origin", 2⟩
        (monitorTick idleThenBusyWorld ⟨"key", "gitdiffy", "origin", 2⟩ ⟨none, []⟩
          ⟨0, 0⟩).state [⟨1, 1⟩, ⟨2, 2⟩, ⟨3, 3⟩]).2.map (fun r => r.changes) =
      [true, true, true] ∧
    (monitorRepo idleThenBusyWorld ⟨"key", "gitdiffy", "origin", 2⟩
        (monitorTick idleThenBusyWorld ⟨"key", "gitdiffy", "origin", 2⟩ ⟨none, []⟩
          ⟨0, 0⟩).state [⟨1, 1⟩, ⟨2, 2⟩, ⟨3, 3⟩]).2.map (fun r => r.triggered) =
      [false, false, true] ∧
    (monitorRepo idleThenBusyWorld ⟨"key", "gitdiffy", "origin", 2⟩
        (monitorTick idleThenBusyWorld ⟨"key", "gitdiffy", "origin", 2⟩ ⟨none, []⟩
          ⟨0, 0⟩).state [⟨1, 1⟩, ⟨2, 2⟩, ⟨3, 3⟩]).2.map (fun r => r.crashed) =
      [false, false, false] ∧
    (monitorTick idleThenBusyWorld ⟨"key", "gitdiffy", "origin", 2⟩
        (monitorRepo idleThenBusyWorld ⟨"key", "gitdiffy", "origin", 2⟩
          (monitorTick idleThenBusyWorld ⟨"key", "gitdiffy", "origin", 2⟩ ⟨none, []⟩
            ⟨0, 0⟩).state [⟨1, 1⟩, ⟨2, 2⟩, ⟨3, 3⟩]).1 ⟨4, 4⟩).changes = true ∧
    (monitorTick idleThenBusyWorld ⟨"key", "gitdiffy", "origin", 2⟩
        (monitorRepo idleThenBusyWorld ⟨"key", "gitdiffy", "origin", 2⟩
          (monitorTick idleThenBusyWorld ⟨"key", "gitdiffy", "origin", 2⟩ ⟨none, []⟩
            ⟨0, 0⟩).state [⟨1, 1⟩, ⟨2, 2⟩, ⟨3, 3⟩]).1 ⟨4, 4⟩).elapsed = some 0 ∧
    (4 : Int) - runStart [⟨1, 1⟩, ⟨2, 2⟩, ⟨3, 3⟩] ⟨4, 4⟩ = 3 := by
  decide

/-- C4: for every current branch name `b`, configured head `p` and timestamp `t`, the
branch target has `isNew` true if and only if `b` does not start with `p`; its name is
`p ++ "-" ++ t` when new and `b` unchanged otherwise; `git checkout -b` on that name is
issued exactly when the target is new. On `main` with head `gitdiffy` the target is
new and named `gitdiffy-` followed by the timestamp; on `gitdiffy-20240101-000000` it
is the current branch, not new. -/
theorem C4_branch_target_computation (w : World) (cfg : Config) (tr : List Op)
    (b p t : String) :
    ((branchTarget b p t).isNew = true ↔ hasPrefix b p = false) ∧
    (branchTarget b p t).name = (if hasPrefix b p = true then b else p ++ "-" ++ t) ∧
    (resolveBranch w cfg tr b).1 = branchTarget b cfg.branchPrefix (w.timestamp tr) ∧
    (resolveBranch w cfg tr b).2 =
      (if hasPrefix b cfg.branchPrefix = true then tr
        else tr ++ [Op.checkoutB (cfg.branchPrefix ++ "-" ++ w.timestamp tr)]) ∧
    branchTarget "main" "gitdiffy" t = ⟨"gitdiffy-" ++ t, true⟩ ∧
    branchTarget "gitdiffy-20240101-000000" "gitdiffy" t =
      ⟨"gitdiffy-20240101-000000", false⟩ := by
  have h1 : hasPrefix "main" "gitdiffy" = false := by decide
  have h2 : hasPrefix "gitdiffy-20240101-000000" "gitdiffy" = true := by decide
  refine ⟨?_, ?_, rfl, ?_, ?_, ?_⟩
  · unfold branchTarget; cases hasPrefix b p <;> simp
  · unfold branchTarget; cases hasPrefix b p <;> simp
  · unfold resolveBranch branchTarget exec
    cases hasPrefix b cfg.branchPrefix <;> simp
  · simp [branchTarget, h1]
  · simp [branchTarget, h2]

/-- C5: in `performAutoCommit`, whatever the successes and failures `run` assigns to
the individual operations, a plan `[P1, ..., Pn]` that the generation call returned is
applied as `git add P1.files`, `git commit -m P1.message`, ..., `git add Pn.files`,
`git commit -m Pn.message`, in plan order, right after the unstage-all, and followed by
one `git push -u` of the resolved branch name to the configured remote. The cycle is
one that reaches the loop: the status listing is in the format git prints, the staged
diff is non-empty and the response carries no error text. -/
theorem C5_automatic_apply_order (run : List Op → Op → Bool)
    (out : List Op → Op → Option String) (post : List Op → GenerateMessageRequest → PostReply)
    (ts rl : List Op → String) (cfg : Config) (tr : List Op) (d : String)
    (data : Option JVal)
    (hstatus : statusListingPanics (out (tr ++ [Op.addAll]) Op.statusShort) = false)
    (hdiff : out (tr ++ [Op.addAll, Op.statusShort]) Op.diffCached = some d)
    (hd : d.length ≠ 0)
    (hpost : post (tr ++ [Op.addAll, Op.statusShort, Op.diffCached]) ⟨cfg.license, d⟩ =
      PostReply.body data)
    (herr : (unmarshalResponse data).Error = "") :
    performAutoCommit ⟨run, out, post, ts, rl⟩ cfg tr =
      let pre := tr ++ [Op.addAll, Op.statusShort, Op.diffCached, Op.post ⟨cfg.license, d⟩]
      let cur := match out pre Op.revParseHead with
        | none => "main"
        | some o => trimSpace o
      let br := resolveBranch ⟨run, out, post, ts, rl⟩ cfg (pre ++ [Op.revParseHead]) cur
      (Outcome.completed br.1.name,
        br.2 ++ [Op.restoreStaged] ++ planOps (unmarshalResponse data).Commits.Commits ++
          [Op.push cfg.pushRemote br.1.name]) :=
  performAutoCommit_ok ⟨run, out, post, ts, rl⟩ cfg tr d data hstatus hdiff hd hpost herr

/-- Witness of C5: a plan of three proposals in a world where `git commit` of the
second one fails; the third is still staged and committed, and the push follows. -/
theorem C5_automatic_apply_order_witness :
    performAutoCommit
        ⟨fun _ op => op != Op.commit "second",
          fun _ op => if op = Op.revParseHead then none else some "diff",
          fun _ _ => PostReply.body (some (wireResponse true
            ⟨⟨[⟨"first", ["a.go"]⟩, ⟨"second", ["b.go"]⟩, ⟨"third", []⟩]⟩, ""⟩)),
          fun _ => "20240101-000000", fun _ => ""⟩
        (defaultConfig "key") [] =
      (Outcome.completed "gitdiffy-20240101-000000",
        [Op.addAll, Op.statusShort, Op.diffCached, Op.post ⟨"key", "diff"⟩, Op.revParseHead,
          Op.checkoutB "gitdiffy-20240101-000000", Op.restoreStaged,
          Op.add ["a.go"], Op.commit "first", Op.add ["b.go"], Op.commit "second",
          Op.add [], Op.commit "third", Op.push "origin" "gitdiffy-20240101-000000"]) :=
  (C5_automatic_apply_order (fun _ op => op != Op.commit "second")
    (fun _ op => if op = Op.revParseHead then none else some "diff")
    (fun _ _ => PostReply.body (some (wireResponse true
      ⟨⟨[⟨"first", ["a.go"]⟩, ⟨"second", ["b.go"]⟩, ⟨"third", []⟩]⟩, ""⟩)))
    (fun _ => "20240101-000000") (fun _ => "") (defaultConfig "key") [] "diff" _
    (by decide) rfl (by decide) rfl (by rw [unmarshal_wire])).trans
    (by rw [unmarshal_wire]; decide)

/-- C6: when `http.Post` returns a response, `GenerateCommitMessages` decodes it and
fails with `API error: ` followed by the error text if that text is non-empty, returning
no proposals whatever the commits field holds; with an empty or absent error text it
succeeds with the decoded proposals. For a body in the wire form of a response `r`
the proposals returned are exactly those of `r`, in order, the empty list included. -/
theorem C6_generate_response (w : World) (cfg : Config) (tr : List Op) (diff : String)
    (data : Option JVal)
    (hpost : w.httpPost tr ⟨cfg.license, diff⟩ = PostReply.body data) :
    GenerateCommitMessages w cfg tr diff =
      (if (unmarshalResponse data).Error = "" then
          Except.ok (unmarshalResponse data).Commits.Commits
        else Except.error ("API error: " ++ (unmarshalResponse data).Error),
        tr ++ [Op.post ⟨cfg.license, diff⟩]) ∧
    (∀ keep r, data = some (wireResponse keep r) →
      (GenerateCommitMessages w cfg tr diff).1 =
        if r.Error = "" then Except.ok r.Commits.Commits
        else Except.error ("API error: " ++ r.Error)) := by
  have h1 : GenerateCommitMessages w cfg tr diff =
      (if (unmarshalResponse data).Error = "" then
          Except.ok (unmarshalResponse data).Commits.Commits
        else Except.error ("API error: " ++ (unmarshalResponse data).Error),
        tr ++ [Op.post ⟨cfg.license, diff⟩]) := by
    unfold GenerateCommitMessages
    simp only [hpost]
    by_cases he : (unmarshalResponse data).Error = "" <;> simp [he]
  refine ⟨h1, ?_⟩
  intro keep r hdata
  rw [h1, hdata, unmarshal_wire]

/-- Witness of C6: a response carrying one proposal and the error text `rate limited`
is a generation failure. -/
theorem C6_generate_response_witness :
    GenerateCommitMessages
        (fixedWorld (some " M a.go\n") (some "diff") (some "main\n")
          (PostReply.body (some (wireResponse false ⟨⟨[⟨"fix bug", ["a.go"]⟩]⟩, "rate limited"⟩))))
        (defaultConfig "key") [] "diff" =
      (Except.error "API error: rate limited", [Op.post ⟨"key", "diff"⟩]) :=
  (C6_generate_response
    (fixedWorld (some " M a.go\n") (some "diff") (some "main\n")
      (PostReply.body (some (wireResponse false ⟨⟨[⟨"fix bug", ["a.go"]⟩]⟩, "rate limited"⟩))))
    (defaultConfig "key") [] "diff" _ rfl).1.trans (by rfl)

/-- C7, evaluated on the code: with an empty license key, `WatchCmd.Run` of
`cmd/watch/watch.go` does not exit. Its first tick queries `git status`, and with a
zero threshold that same tick runs a whole cycle, sending a generation request with an
empty `licenseKey`, committing and pushing. The `watch` command of `gitdiffy.go` and
`CommitCmd.Run` exit with status 1 before any operation. -/
theorem C7_watch_runs_without_license :
    WatchCmd_Run
        (fixedWorld (some " M a.go\n") (some "diff") (some "main\n")
          (PostReply.body (some nestedScenarioBody)))
        (defaultConfig "") [⟨0, 0⟩] = (Outcome.done, [Op.statusPorcelain]) ∧
    WatchCmd_Run
        (fixedWorld (some " M a.go\n") (some "diff") (some "main\n")
          (PostReply.body (some nestedScenarioBody)))
        ⟨"", "gitdiffy", "origin", 0⟩ [⟨0, 0⟩] =
      (Outcome.done,
        [Op.statusPorcelain, Op.addAll, Op.statusShort, Op.diffCached, Op.post ⟨"", "diff"⟩,
          Op.revParseHead, Op.checkoutB "gitdiffy-20240101-000000", Op.restoreStaged,
          Op.add ["a.go"], Op.commit "fix bug", Op.push "origin" "gitdiffy-20240101-000000"]) ∧
    watchCmd_Run
        (fixedWorld (some " M a.go\n") (some "diff") (some "main\n")
          (PostReply.body (some nestedScenarioBody)))
        (defaultConfig "") [⟨0, 0⟩] = (Outcome.exited 1, []) ∧
    CommitCmd_Run
        (fixedWorld (some " M a.go\n") (some "diff") (some "main\n")
          (PostReply.body (some nestedScenarioBody)))
        (defaultConfig "") = (Outcome.exited 1, []) := by
  decide

/-- C8 as amended: when pending changes have been observed for exactly
`maxWorkDuration` and the response body carries the proposals under `commits.commits`,
that is `commits` is an object whose key `commits` holds the one proposal with message
`fix bug` and file `a.go`, with an empty `error`, the tick triggers a cycle that, after
the unstage-all, stages only `a.go`, commits once with message `fix bug`, and pushes
the resolved branch. -/
theorem C8_scenario_B_nested_body (w : World) (cfg : Config) (st : MonitorState)
    (clk : TickClock) (s : Int) (d : String)
    (hfc : st.firstChange = some s)
    (hel : clk.nowSince - s = cfg.maxWorkDuration)
    (hchg : (HasChanges w st.trace).1 = true)
    (hstatus : statusListingPanics
      (w.output (st.trace ++ [Op.statusPorcelain] ++ [Op.addAll]) Op.statusShort) = false)
    (hdiff : w.output (st.trace ++ [Op.statusPorcelain] ++ [Op.addAll, Op.statusShort])
      Op.diffCached = some d)
    (hd : d.length ≠ 0)
    (hpost : w.httpPost
        (st.trace ++ [Op.statusPorcelain] ++ [Op.addAll, Op.statusShort, Op.diffCached])
        ⟨cfg.license, d⟩ = PostReply.body (some nestedScenarioBody)) :
    (monitorTick w cfg st clk).triggered = true ∧
    (monitorTick w cfg st clk).state.firstChange = none ∧
    (monitorTick w cfg st clk).state.trace =
      let pre := st.trace ++ [Op.statusPorcelain] ++
        [Op.addAll, Op.statusShort, Op.diffCached, Op.post ⟨cfg.license, d⟩]
      let cur := match w.output pre Op.revParseHead with
        | none => "main"
        | some o => trimSpace o
      let br := resolveBranch w cfg (pre ++ [Op.revParseHead]) cur
      br.2 ++ [Op.restoreStaged, Op.add ["a.go"], Op.commit "fix bug",
        Op.push cfg.pushRemote br.1.name] := by
  have hE : cfg.maxWorkDuration ≤ clk.nowSince - windowStart st.firstChange clk := by
    rw [hfc]; simp [windowStart, hel]
  have hok := performAutoCommit_ok w cfg (st.trace ++ [Op.statusPorcelain]) d
    (some nestedScenarioBody) hstatus hdiff hd hpost (by rw [unmarshal_nestedScenarioBody])
  rw [monitorTick_eq]
  simp only [hchg, hE, if_true, hok, unmarshal_nestedScenarioBody, planOps]
  simp

/-- Witness of C8 as amended: the defaults of `cmd/root.go`, a window opened at
instant 0 and a tick ten minutes later, on branch `main`. -/
theorem C8_scenario_B_nested_body_witness :
    (monitorTick
        (fixedWorld (some " M a.go\n") (some "diff") (some "main\n")
          (PostReply.body (some nestedScenarioBody)))
        (defaultConfig "key") ⟨some 0, []⟩ ⟨600000000000, 600000000000⟩).state.trace =
      [Op.statusPorcelain, Op.addAll, Op.statusShort, Op.diffCached, Op.post ⟨"key", "diff"⟩,
        Op.revParseHead, Op.checkoutB "gitdiffy-20240101-000000", Op.restoreStaged,
        Op.add ["a.go"], Op.commit "fix bug", Op.push "origin" "gitdiffy-20240101-000000"] :=
  (C8_scenario_B_nested_body
    (fixedWorld (some " M a.go\n") (some "diff") (some "main\n")
      (PostReply.body (some nestedScenarioBody)))
    (defaultConfig "key") ⟨some 0, []⟩ ⟨600000000000, 600000000000⟩ 0 "diff"
    rfl (by decide) (by decide) (by decide) rfl (by decide) rfl).2.2.trans (by decide)

/-- Counterexample to C8 as stated: with the response body of the interface contract,
where `commits` is directly the sequence of proposals, the struct of `model/model.go`
decodes no proposal at all (an array does not fit its inner struct), so the cycle
triggered after exactly `maxWorkDuration` stages and commits nothing and pushes the
branch as it is. -/
theorem C8_scenario_B_flat_body_applies_nothing :
    unmarshalResponse (some flatScenarioBody) = ⟨⟨[]⟩, ""⟩ ∧
    (monitorTick
        (fixedWorld (some " M a.go\n") (some "diff") (some "main\n")
          (PostReply.body (some flatScenarioBody)))
        (defaultConfig "key") ⟨some 0, []⟩ ⟨600000000000, 600000000000⟩).triggered = true ∧
    (monitorTick
        (fixedWorld (some " M a.go\n") (some "diff") (some "main\n")
          (PostReply.body (some flatScenarioBody)))
        (defaultConfig "key") ⟨some 0, []⟩ ⟨600000000000, 600000000000⟩).state.trace =
      [Op.statusPorcelain, Op.addAll, Op.statusShort, Op.diffCached, Op.post ⟨"key", "diff"⟩,
        Op.revParseHead, Op.checkoutB "gitdiffy-20240101-000000", Op.restoreStaged,
        Op.push "origin" "gitdiffy-20240101-000000"] := by
  decide

/-- C9: when the staged diff reads empty after staging everything (and the status
listing is in the format git prints), the plan step of `performAutoCommit` reports no changes after exactly `git add .`, `git status --short`
and `git diff --cached`; the plan step of `CommitCmd.Run` reports no changes after
`git status --porcelain` alone, or after that, `git add .` and `git diff --cached`. No
generation request is sent and no branch, stage-files, commit or push operation is
issued; the last thing that touched the index is the `git add .` after which the
staged diff read empty, so nothing is left staged. -/
theorem C9_plan_without_changes (w : World) (cfg : Config) (tr : List Op)
    (hstatus : statusListingPanics (w.output (tr ++ [Op.addAll]) Op.statusShort) = false)
    (hdiff : ∀ h, w.output h Op.diffCached = some "")
    (hlic : cfg.license ≠ "") :
    performAutoCommit w cfg tr =
      (Outcome.noChanges, tr ++ [Op.addAll, Op.statusShort, Op.diffCached]) ∧
    (CommitCmd_Run w cfg = (Outcome.noChanges, [Op.statusPorcelain]) ∨
      CommitCmd_Run w cfg =
        (Outcome.noChanges, [Op.statusPorcelain, Op.addAll, Op.diffCached])) := by
  refine ⟨?_, ?_⟩
  · simp [performAutoCommit, exec, output, hstatus, hdiff]
  · unfold CommitCmd_Run
    have ht := HasChanges_trace w []
    by_cases hc : (HasChanges w []).1 = true
    · right
      simp [hlic, hc, ht, exec, output, hdiff]
    · left
      simp [hlic, hc, ht]

/-- Witness of C9: a clean working tree. -/
theorem C9_plan_without_changes_witness :
    performAutoCommit
        (fixedWorld (some "") (some "") (some "main\n")
          (PostReply.body (some nestedScenarioBody)))
        (defaultConfig "key") [] =
      (Outcome.noChanges, [] ++ [Op.addAll, Op.statusShort, Op.diffCached]) :=
  (C9_plan_without_changes
    (fixedWorld (some "") (some "") (some "main\n") (PostReply.body (some nestedScenarioBody)))
    (defaultConfig "key") [] (by decide) (fun _ => rfl) (by decide)).1

/-- C10: for every configured head `p` and timestamp `t`, the name `p ++ "-" ++ t`
starts with `p`; the branch target computed on it is that same name, not new, and no
`git checkout -b` is issued for it; a whole cycle run while `git rev-parse` reports
that name creates no branch. -/
theorem C10_branch_reuse (w : World) (cfg : Config) (tr : List Op) (t t2 out : String)
    (hrev : ∀ h, w.output h Op.revParseHead = some out)
    (htrim : trimSpace out = cfg.branchPrefix ++ "-" ++ t) :
    hasPrefix (cfg.branchPrefix ++ "-" ++ t) cfg.branchPrefix = true ∧
    branchTarget (cfg.branchPrefix ++ "-" ++ t) cfg.branchPrefix t2 =
      ⟨cfg.branchPrefix ++ "-" ++ t, false⟩ ∧
    resolveBranch w cfg tr (cfg.branchPrefix ++ "-" ++ t) =
      (⟨cfg.branchPrefix ++ "-" ++ t, false⟩, tr) ∧
    (∀ name, Op.checkoutB name ∈ (performAutoCommit w cfg tr).2 → Op.checkoutB name ∈ tr) := by
  have hp : hasPrefix (cfg.branchPrefix ++ "-" ++ t) cfg.branchPrefix = true := by
    rw [String.append_assoc]; exact hasPrefix_append _ _
  refine ⟨hp, ?_, ?_, ?_⟩
  · simp [branchTarget, hp]
  · simp [resolveBranch, branchTarget, hp]
  · intro name hmem
    exact performAutoCommit_checkout w cfg tr out hrev (by rw [htrim]; exact hp) name hmem

/-- Witness of C10: the branch `gitdiffy-20240101-000000` created by an earlier cycle. -/
theorem C10_branch_reuse_witness :
    trimSpace "gitdiffy-20240101-000000\n" = "gitdiffy" ++ "-" ++ "20240101-000000" ∧
    resolveBranch
        (fixedWorld (some " M a.go\n") (some "diff") (some "gitdiffy-20240101-000000\n")
          (PostReply.body (some nestedScenarioBody)))
        (defaultConfig "key") [] ("gitdiffy" ++ "-" ++ "20240101-000000") =
      (⟨"gitdiffy" ++ "-" ++ "20240101-000000", false⟩, []) :=
  ⟨by decide,
    (C10_branch_reuse
      (fixedWorld (some " M a.go\n") (some "diff") (some "gitdiffy-20240101-000000\n")
        (PostReply.body (some nestedScenarioBody)))
      (defaultConfig "key") [] "20240101-000000" "20250101-000000"
      "gitdiffy-20240101-000000\n" (fun _ => rfl) (by decide)).2.2.1⟩

end Gitdiffy
